import Mathlib

/-!
# go-mongodb: the companies service of main.go

A shallow embedding of `src/main.go`. A handler of the program is a function from the
request and the state of the world to an outcome: the new state of the world and whether
the call returned or panicked. The world holds everything the program touches through the
libraries it imports: the response writer of the request being served (net/http), the mgo
sessions, the request-scoped store of gorilla/context, the collection
`companiesapp.companies`, the clock and the state of the ObjectId generator. Every
library call with an effect outside the response writer appends an event to `World.trace`,
so that "exactly once", "before" and "no side effect" can be read off the trace.

The functions of main.go (`Adapt`, `handle`, `handleInsert`, `handleRead`, `withDB`) are
translated statement by statement. An adapter is a Go function value: it may be nil, and a
call of it may panic, so `Adapt` returns a handler or the panic of such a call. The library functions they call are not part of the
repository; each is modelled next to its name, from the behaviour of the library.
-/

set_option autoImplicit false

namespace GoMongodb

/-! ## Data model -/

/-- The type bson.ObjectId: a Go string of raw bytes (twelve for a generated id, none for
the zero value). -/
abbrev ObjectId := List Nat

/-- The struct `company` of main.go (lines 56-63). `When` is a time.Time, held as the
number of nanoseconds since the Unix epoch. -/
structure company where
  ID : ObjectId
  Name : String
  Description : String
  Floor : Int
  Unit : Int
  When : Nat
  deriving DecidableEq, Repr

/-- A value kept in the request-scoped store (an `interface{}` in Go): either a
`*mgo.Session`, named by its number, or a value of some other type. -/
inductive CtxValue where
  | session (sid : Nat)
  | other (tag : String)
  deriving DecidableEq, Repr

/-- The library calls of one run, in the order in which they were made. -/
inductive Event where
  /-- `src.Copy()` returned the new session `sid`. -/
  | copy (src sid : Nat)
  /-- `sid.Close()`. -/
  | close (sid : Nat)
  /-- `context.Set(r, key, val)`. -/
  | ctxSet (req : Nat) (key : String) (val : CtxValue)
  /-- `context.Get(r, key)` and what it returned (`none` is Go's nil). -/
  | ctxGet (req : Nat) (key : String) (val : Option CtxValue)
  /-- `context.Clear(r)`. -/
  | ctxClear (req : Nat)
  /-- `json.NewDecoder(r.Body).Decode(&c)`: the body of the request was read. -/
  | decode (req : Nat)
  /-- `Insert(&c)` on the collection, through session `sid`. -/
  | insert (sid : Nat) (c : company)
  /-- `Find(nil).Sort("-when").Limit(100).All(..)` through session `sid`. -/
  | find (sid : Nat)
  /-- `log.Print(msg)`: used by the logging adapters of the ordering examples. -/
  | log (msg : String)
  deriving DecidableEq, Repr

/-- An `*http.Request`: `id` stands for the pointer (the identity gorilla/context keys its
store by), `Method` and `Body` are the fields main.go reads. -/
structure Request where
  id : Nat
  Method : String
  Body : String
  deriving DecidableEq, Repr

/-- An `http.ResponseWriter`: the header map, the status line (`none` until the header has
been written) and the bytes of the body written so far. -/
structure ResponseWriter where
  header : List (String × String)
  status : Option Nat
  body : String
  deriving DecidableEq, Repr

/-- The response writer net/http hands to a handler: nothing set, nothing written. -/
def ResponseWriter.fresh : ResponseWriter := ⟨[], none, ""⟩

/-- The state of the world around the handlers. -/
structure World where
  /-- the response writer of the request being served -/
  w : ResponseWriter
  /-- the mgo sessions in the order of their creation, a session being named by its
  position: `true` for an open session, `false` for a closed one -/
  sessions : List Bool
  /-- the store of gorilla/context: request -> key -> value -/
  data : List (Nat × List (String × CtxValue))
  /-- the documents of the collection companiesapp.companies, oldest insert first -/
  companies : List company
  /-- the time time.Now() returns, in nanoseconds since the Unix epoch -/
  clock : Nat
  /-- the three machine bytes of generated ObjectIds -/
  machineId : Nat × Nat × Nat
  /-- the process id used in generated ObjectIds -/
  processId : Nat
  /-- the counter of generated ObjectIds -/
  objectIdCounter : Nat
  /-- the error the store answers an Insert with, if it fails -/
  insertErr : Option String
  /-- the error the store answers a query with, if it fails -/
  findErr : Option String
  /-- the error json.Encoder.Encode returns, if it fails -/
  encodeErr : Option String
  /-- the library calls made so far -/
  trace : List Event
  deriving DecidableEq, Repr

/-- The two pure functions of encoding/json the handlers rely on, taken as parameters:
decoding a request body into a `company` (or the decode error), and the JSON object text
of one `company`. -/
structure Lib where
  decode : String → Except String company
  marshal : company → String

/-- How a call ended: the world it left, and the panic value if it panicked
(`none`: it returned normally). -/
structure Outcome where
  world : World
  panic : Option String
  deriving DecidableEq, Repr

/-- An `http.Handler`: `ServeHTTP(w, r)`, with the response writer inside the world. -/
abbrev Handler := Request → World → Outcome

/-- The type `Adapter` of main.go (line 36), `func(http.Handler) http.Handler`: a value of
a Go function type is nil or a function, and a call of the function returns a handler or
panics. -/
inductive Adapter where
  | nil
  | fn (f : Handler → Except String Handler)

/-- The call `adapter(h)`: the handler returned, or the panic; calling nil panics. -/
def Adapter.call : Adapter → Handler → Except String Handler
  | Adapter.nil, _ => .error "invalid memory address or nil pointer dereference"
  | Adapter.fn f, h => f h

/-- The adapter that is the function `f`, every call of which returns. -/
def Adapter.returning (f : Handler → Handler) : Adapter :=
  Adapter.fn (fun h => .ok (f h))

/-! ## net/http -/

/-- `w.Header().Set(key, value)`. -/
def headerSet (key value : String) (h : List (String × String)) : List (String × String) :=
  (key, value) :: h.filter (fun e => e.1 ≠ key)

/-- `w.WriteHeader(code)`: the first call fixes the status, later ones are ignored. -/
def WriteHeader (w : ResponseWriter) (code : Nat) : ResponseWriter :=
  match w.status with
  | none => { w with status := some code }
  | some _ => w

/-- `w.Write(b)`: writes the header with status 200 if it was not written yet, then
appends the bytes to the body. -/
def Write (w : ResponseWriter) (b : String) : ResponseWriter :=
  let w1 := WriteHeader w 200
  { w1 with body := w1.body ++ b }

/-- `http.Error(w, msg, code)`: sets the plain-text headers, writes the header with `code`
and prints the message as one line (`fmt.Fprintln`). -/
def httpError (w : ResponseWriter) (msg : String) (code : Nat) : ResponseWriter :=
  let w1 := { w with header := headerSet "Content-Type" "text/plain; charset=utf-8" w.header }
  let w2 := { w1 with header := headerSet "X-Content-Type-Options" "nosniff" w1.header }
  Write (WriteHeader w2 code) (msg ++ "\n")

/-- `http.Redirect(w, r, url, code)` for a url that is an absolute path of ASCII characters
and for the code 307 (what main.go passes): the url is the Location; a GET request that
had no Content-Type gets an HTML note with the status text as body, any other request gets
no body. -/
def httpRedirect (w : ResponseWriter) (r : Request) (url : String) (code : Nat) :
    ResponseWriter :=
  let hadCT := w.header.any (fun e => e.1 == "Content-Type")
  let w1 := { w with header := headerSet "Location" url w.header }
  let w2 := if !hadCT && (r.Method == "GET" || r.Method == "HEAD") then
      { w1 with header := headerSet "Content-Type" "text/html; charset=utf-8" w1.header }
    else w1
  let w3 := WriteHeader w2 code
  if !hadCT && r.Method == "GET" then
    Write w3 ("<a href=\"" ++ url ++ "\">Temporary Redirect</a>.\n\n")
  else w3

/-! ## gorilla/context -/

/-- The value stored for request `rid` under `key`, or `none` (Go's nil). -/
def contextLookup (rid : Nat) (key : String) (s : World) : Option CtxValue :=
  match s.data.lookup rid with
  | none => none
  | some m => m.lookup key

/-- `context.Get(r, key)`: the value looked up; the call is recorded in the trace. -/
def contextGet (rid : Nat) (key : String) (s : World) : Option CtxValue × World :=
  (contextLookup rid key s,
   { s with trace := s.trace ++ [Event.ctxGet rid key (contextLookup rid key s)] })

/-- `context.Set(r, key, val)`: creates the map of the request if there is none and
stores the value under the key. -/
def contextSet (rid : Nat) (key : String) (val : CtxValue) (s : World) : World :=
  { s with
    data := (rid, (key, val) :: ((s.data.lookup rid).getD []).filter (fun e => e.1 ≠ key))
              :: s.data.filter (fun e => e.1 ≠ rid),
    trace := s.trace ++ [Event.ctxSet rid key val] }

/-- `context.Clear(r)`: deletes everything stored for the request. -/
def contextClear (rid : Nat) (s : World) : World :=
  { s with
    data := s.data.filter (fun e => e.1 ≠ rid),
    trace := s.trace ++ [Event.ctxClear rid] }

/-- `context.ClearHandler(h)`: `defer Clear(r); h.ServeHTTP(w, r)`. The deferred call runs
when `h` returns and when it panics; a panic goes on after it. -/
def ClearHandler (h : Handler) : Handler := fun r s =>
  let out := h r s
  ⟨contextClear r.id out.world, out.panic⟩

/-! ## mgo and bson -/

/-- A session is open when it has been created and not closed. -/
def World.isOpen (s : World) (sid : Nat) : Bool :=
  s.sessions[sid]? == some true

/-- `db.Copy()`: a new open session, the next in the order of creation. Copying a session
that is not open panics in mgo ("Session already closed"): `none`. -/
def sessionCopy (db : Nat) (s : World) : Option (Nat × World) :=
  if s.isOpen db then
    some (s.sessions.length,
      { s with sessions := s.sessions ++ [true],
               trace := s.trace ++ [Event.copy db s.sessions.length] })
  else none

/-- `sid.Close()`: closes the session; closing a closed session does nothing more. -/
def sessionClose (sid : Nat) (s : World) : World :=
  { s with
    sessions := s.sessions.set sid false,
    trace := s.trace ++ [Event.close sid] }

/-- A time.Time as bson stores it: in milliseconds, the rest of the nanoseconds dropped. -/
def bsonTime (t : Nat) : Nat := t / 1000000 * 1000000

/-- The document bson writes for a `company`: the fields under their bson names, `When`
in milliseconds. -/
def bsonDocument (c : company) : company :=
  { c with When := bsonTime c.When }

/-- `db.DB("companiesapp").C("companies").Insert(&c)`: `none` when the session is not open
(mgo panics), otherwise the error of the store (`some e`) or success, in which case the
document of `c` is in the collection. -/
def collInsert (sid : Nat) (c : company) (s : World) : Option (Option String × World) :=
  if s.isOpen sid then
    match s.insertErr with
    | some e => some (some e, { s with trace := s.trace ++ [Event.insert sid c] })
    | none => some (none, { s with companies := s.companies ++ [bsonDocument c],
                                   trace := s.trace ++ [Event.insert sid c] })
  else none

/-- The documents in the order of `Sort("-when")`: latest `When` first. -/
def sortByWhenDesc (cs : List company) : List company :=
  cs.insertionSort (fun a b => b.When ≤ a.When)

/-- `....Find(nil).Sort("-when").Limit(100).All(&companies)` where `companies` is the slice
`dest` (`none` is the nil slice): `none` when the session is not open (mgo panics),
otherwise the error of the store or the slice after the call. `All` appends the documents
to the slice cut to length zero, so a nil slice stays nil when there is no document. -/
def collFindAll (sid : Nat) (dest : Option (List company)) (s : World) :
    Option (Except String (Option (List company)) × World) :=
  if s.isOpen sid then
    let s1 := { s with trace := s.trace ++ [Event.find sid] }
    match s.findErr with
    | some e => some (.error e, s1)
    | none =>
      match (sortByWhenDesc s.companies).take 100 with
      | [] => some (.ok (dest.map (fun _ => [])), s1)
      | d :: ds => some (.ok (some (d :: ds)), s1)
  else none

/-- `bson.NewObjectId()`: four bytes of the time in seconds, three machine bytes, two
bytes of the process id and three bytes of the incremented counter, big endian. -/
def NewObjectId (s : World) : ObjectId × World :=
  let t := s.clock / 1000000000
  let i := (s.objectIdCounter + 1) % 4294967296
  ([t / 16777216 % 256, t / 65536 % 256, t / 256 % 256, t % 256,
    s.machineId.1 % 256, s.machineId.2.1 % 256, s.machineId.2.2 % 256,
    s.processId / 256 % 256, s.processId % 256,
    i / 65536 % 256, i / 256 % 256, i % 256],
   { s with objectIdCounter := i })

/-- The hexadecimal digit of a number below sixteen. -/
def hexDigit (n : Nat) : Char :=
  "0123456789abcdef".data.getD n '0'

/-- `id.Hex()`: two lower-case hexadecimal digits for every byte. -/
def Hex (id : ObjectId) : String :=
  String.mk (id.flatMap (fun b => [hexDigit (b / 16 % 16), hexDigit (b % 16)]))

/-- `time.Now()`: the clock of the world, which stands still during one call of a
handler. -/
def timeNow (s : World) : Nat := s.clock

/-! ## encoding/json -/

/-- `json.Marshal` of a `[]*company`: a nil slice is `null`, any other slice is a JSON
array of the objects of its elements. -/
def jsonMarshal (lib : Lib) : Option (List company) → String
  | none => "null"
  | some cs => "[" ++ ",".intercalate (cs.map lib.marshal) ++ "]"

/-- `json.NewEncoder(w).Encode(v)`: the error if encoding fails (nothing is written),
otherwise the JSON text and a newline are written to `w`. -/
def jsonEncode (lib : Lib) (v : Option (List company)) (s : World) : Option String × World :=
  match s.encodeErr with
  | some e => (some e, s)
  | none => (none, { s with w := Write s.w (jsonMarshal lib v ++ "\n") })

/-- The type assertion `.(*mgo.Session)` of lines 66 and 89: the session, or the panic of
a failed assertion (on nil as on a value of another type). -/
def assertSession : Option CtxValue → Except String Nat
  | some (CtxValue.session sid) => .ok sid
  | some (CtxValue.other _) => .error "interface conversion: interface is not *mgo.Session"
  | none => .error "interface conversion: interface is nil, not *mgo.Session"

/-! ## main.go -/

/-- The function `Adapt` of main.go (lines 38-43): the loop over `adapters`, each turn
replacing `h` by `adapter(h)`; the handler returned, or the panic of the call of an adapter,
which ends the loop and `Adapt`. -/
def Adapt (h : Handler) : List Adapter → Except String Handler
  | [] => .ok h
  | adapter :: rest =>
    match adapter.call h with
    | .error p => .error p
    | .ok h1 => Adapt h1 rest

/-- The function `handleInsert` of main.go (lines 65-87). -/
def handleInsert (lib : Lib) : Handler := fun r s =>
  let got := contextGet r.id "database" s
  match assertSession got.1 with
  | .error p => ⟨got.2, some p⟩
  | .ok db =>
    let s1 := { got.2 with trace := got.2.trace ++ [Event.decode r.id] }
    match lib.decode r.Body with
    | .error err => ⟨{ s1 with w := httpError s1.w err 400 }, none⟩
    | .ok c =>
      let gen := NewObjectId s1
      let c1 := { c with ID := gen.1 }
      let c2 := { c1 with When := timeNow gen.2 }
      match collInsert db c2 gen.2 with
      | none => ⟨gen.2, some "Session already closed"⟩
      | some (some err, s2) => ⟨{ s2 with w := httpError s2.w err 400 }, none⟩
      | some (none, s2) =>
        ⟨{ s2 with w := httpRedirect s2.w r ("/companies/" ++ Hex c2.ID) 307 }, none⟩

/-- The function `handleRead` of main.go (lines 88-105). `var companies []*company`
declares the nil slice. -/
def handleRead (lib : Lib) : Handler := fun r s =>
  let got := contextGet r.id "database" s
  match assertSession got.1 with
  | .error p => ⟨got.2, some p⟩
  | .ok db =>
    let companies : Option (List company) := none
    match collFindAll db companies got.2 with
    | none => ⟨got.2, some "Session already closed"⟩
    | some (.error err, s1) => ⟨{ s1 with w := httpError s1.w err 500 }, none⟩
    | some (.ok companies, s1) =>
      match jsonEncode lib companies s1 with
      | (some err, s2) => ⟨{ s2 with w := httpError s2.w err 500 }, none⟩
      | (none, s2) => ⟨s2, none⟩

/-- The function `handle` of main.go (lines 45-54). -/
def handle (lib : Lib) : Handler := fun r s =>
  if r.Method = "GET" then handleRead lib r s
  else if r.Method = "POST" then handleInsert lib r s
  else ⟨{ s with w := httpError s.w "Not supported" 405 }, none⟩

/-- The handler the adapter of `withDB(db)` returns for `h`: the `http.HandlerFunc` of
main.go, lines 113-125. The deferred `dbsession.Close()` runs when `h.ServeHTTP` returns
and when it panics; a panic goes on after it. A panic of `db.Copy()` happens before the
defer statement. -/
def withDBHandler (db : Nat) (h : Handler) : Handler := fun r s =>
  match sessionCopy db s with
  | none => ⟨s, some "Session already closed"⟩
  | some (dbsession, s1) =>
    let s2 := contextSet r.id "database" (CtxValue.session dbsession) s1
    let out := h r s2
    ⟨sessionClose dbsession out.world, out.panic⟩

/-- The function `withDB` of main.go (lines 107-127): the adapter it returns is a function
literal, and a call of it returns the handler of lines 113-125. -/
def withDB (db : Nat) : Adapter :=
  Adapter.fn (fun h => .ok (withDBHandler db h))

/-- The handler `main` registers for "/companies" (lines 24 and 27):
`context.ClearHandler(Adapt(http.HandlerFunc(handle), withDB(db)))`, or the panic of
`Adapt`. -/
def mainHandler (lib : Lib) (db : Nat) : Except String Handler :=
  match Adapt (handle lib) [withDB db] with
  | .error p => .error p
  | .ok h => .ok (ClearHandler h)

/-- The net/http server serving requests one after the other: each request gets a fresh
response writer, and a panic of the handler is recovered by the server. -/
def serveAll (h : Handler) : List Request → World → World
  | [], s => s
  | r :: rs, s => serveAll h rs (h r { s with w := ResponseWriter.fresh }).world

/-! ## The composition as the specification words it -/

/-- The composition as section 4.1 of the specification describes it, a composition that
cannot fail: starting from the base handler, for each adapter in the given order the
current handler is replaced by `adapter(currentHandler)`. -/
def composeSpec (h : Handler) (adapters : List (Handler → Handler)) : Handler :=
  adapters.foldl (fun currentHandler adapter => adapter currentHandler) h

/-- The record `handleInsert` builds from the decoded record `c` in the world `s`: the
id is the one `bson.NewObjectId()` generates, `When` is `time.Now()`, the other four
fields are those of `c`. -/
def insertedRecord (c : company) (s : World) : company :=
  ⟨(NewObjectId s).1, c.Name, c.Description, c.Floor, c.Unit, timeNow s⟩

/-! ## Concrete inputs -/

/-- An adapter with visible pre-logic and post-logic: it logs before it calls the wrapped
handler and after that call has returned. -/
def logAdapter (name : String) : Adapter := Adapter.returning (fun h r s =>
  let out := h r { s with trace := s.trace ++ [Event.log ("pre " ++ name)] }
  ⟨{ out.world with trace := out.world.trace ++ [Event.log ("post " ++ name)] }, out.panic⟩)

/-- A handler that panics at once. -/
def panicHandler : Handler := fun _ s => ⟨s, some "boom"⟩

/-- A stand-in for encoding/json: the truncated body of the specification's scenario does
not decode, every other body decodes to one fixed record that carries an id and a time of
the client; a record is rendered by its name alone. -/
def exLib : Lib where
  decode := fun body =>
    if body = "\x7b\"name\":" then .error "unexpected EOF"
    else .ok ⟨[1, 2, 3], "Acme", "Widgets", 3, 12, 77⟩
  marshal := fun c => "\x7b\"name\":\"" ++ c.Name ++ "\"\x7d"

/-- A world right after `mgo.Dial`: the pool session is session 0 and is open, the store
and the collection are empty, nothing fails. -/
def exWorld : World where
  w := ResponseWriter.fresh
  sessions := [true]
  data := []
  companies := []
  clock := 1700000000123456789
  machineId := (10, 11, 12)
  processId := 4242
  objectIdCounter := 7
  insertErr := none
  findErr := none
  encodeErr := none
  trace := []

/-- The world `withDB(0)` hands to the wrapped handler when it serves the request `r` in
`exWorld`: session 1 is the copy, stored for `r` under "database". -/
def exInner (r : Request) : World :=
  contextSet r.id "database" (CtxValue.session 1)
    { exWorld with sessions := [true, true], trace := [Event.copy 0 1] }

/-- The request `GET /companies`. -/
def exGet : Request := ⟨5, "GET", ""⟩

/-- The request `POST /companies` with a body that decodes. -/
def exPost : Request := ⟨6, "POST", "\x7b\"name\":\"Acme\"\x7d"⟩

/-- The request `POST /companies` with the truncated body. -/
def exBadPost : Request := ⟨7, "POST", "\x7b\"name\":"⟩

/-- The request `DELETE /companies`. -/
def exDelete : Request := ⟨8, "DELETE", ""⟩

/-! ## Adapt -/

/-- Appending an adapter to the list calls it on the handler built so far. -/
theorem Adapt_append_singleton (h : Handler) (adapters : List Adapter) (a : Adapter) :
    Adapt h (adapters ++ [a]) = (Adapt h adapters).bind a.call := by
  induction adapters generalizing h with
  | nil => cases hc : a.call h <;> simp [Adapt, hc, Except.bind]
  | cons b rest ih =>
    cases hb : b.call h with
    | error p => simp [Adapt, hb, Except.bind]
    | ok h1 => simpa [Adapt, hb] using ih h1

/-- Once the call of an adapter has panicked, the fold is that panic. -/
theorem foldl_bind_error (p : String) (adapters : List Adapter) :
    adapters.foldl (fun cur a => cur.bind a.call) (Except.error p) = Except.error p := by
  induction adapters with
  | nil => rfl
  | cons a rest ih => simpa [List.foldl, Except.bind] using ih

/-- `Adapt` is the left fold of the calls of the adapters. -/
theorem Adapt_eq_foldl (h : Handler) (adapters : List Adapter) :
    Adapt h adapters = adapters.foldl (fun cur a => cur.bind a.call) (Except.ok h) := by
  induction adapters generalizing h with
  | nil => rfl
  | cons a rest ih =>
    cases ha : a.call h with
    | error p =>
      have hb : (Except.ok h : Except String Handler).bind a.call = Except.error p := ha
      rw [List.foldl_cons, hb, foldl_bind_error]
      simp [Adapt, ha]
    | ok h1 =>
      have hb : (Except.ok h : Except String Handler).bind a.call = Except.ok h1 := ha
      rw [List.foldl_cons, hb, ← ih h1]
      simp [Adapt, ha]

/-- On adapters that are functions whose calls return, `Adapt` returns the composition of
the specification. -/
theorem Adapt_returning (h : Handler) (fs : List (Handler → Handler)) :
    Adapt h (fs.map Adapter.returning) = Except.ok (composeSpec h fs) := by
  induction fs generalizing h with
  | nil => rfl
  | cons f rest ih =>
    simpa [Adapt, Adapter.returning, Adapter.call, composeSpec] using ih (f h)

/-- C1, as stated, fails: with the adapters `[a1, a2]` the pre-logic of `a2` runs before
that of `a1` and the post-logic of `a2` runs last, so the composed handler is not `a1`
around the handler built from `a2`: the first adapter is the innermost layer. -/
theorem Adapt_first_adapter_is_not_outermost :
    ∃ composed claimed : Handler,
      Adapt (handle exLib) [logAdapter "a1", logAdapter "a2"] = Except.ok composed
        ∧ (Adapt (handle exLib) [logAdapter "a2"]).bind (logAdapter "a1").call
            = Except.ok claimed
        ∧ (composed exDelete exWorld).world.trace
          = [Event.log "pre a2", Event.log "pre a1", Event.log "post a1", Event.log "post a2"]
        ∧ (claimed exDelete exWorld).world.trace
          = [Event.log "pre a1", Event.log "pre a2", Event.log "post a2", Event.log "post a1"]
        ∧ composed exDelete exWorld ≠ claimed exDelete exWorld :=
  ⟨_, _, rfl, rfl, by decide, by decide, by decide⟩

/-- C1, amended: for adapters `a1, ..., an` with `n >= 2` the handler `Adapt` returns has
the last adapter `an` as its outermost layer and the first adapter `a1` as its innermost
one: it is `an` applied to the handler built from `a2 .. a(n-1)` around `a1(h)`. This holds
of every list of adapter values (`an` is called last, on the handler composed from the
others, when their calls have returned), and for adapters that are functions whose calls
return it reads `an(Adapt(a1(h), a2 .. a(n-1)))`. -/
theorem Adapt_last_adapter_is_outermost (h : Handler) (a1 : Adapter) (mid : List Adapter)
    (an : Adapter) (f1 : Handler → Handler) (fmid : List (Handler → Handler))
    (fn : Handler → Handler) :
    Adapt h (a1 :: (mid ++ [an])) = ((a1.call h).bind (fun h1 => Adapt h1 mid)).bind an.call
      ∧ Adapt h (a1 :: (mid ++ [an])) = (Adapt h (a1 :: mid)).bind an.call
      ∧ (∀ h1 inner, a1.call h = Except.ok h1 → Adapt h1 mid = Except.ok inner →
          Adapt h (a1 :: mid) = Except.ok inner
            ∧ Adapt h (a1 :: (mid ++ [an])) = an.call inner)
      ∧ Adapt h (Adapter.returning f1
            :: (fmid.map Adapter.returning ++ [Adapter.returning fn]))
          = Except.ok (fn (composeSpec (f1 h) fmid))
      ∧ Adapt (f1 h) (fmid.map Adapter.returning) = Except.ok (composeSpec (f1 h) fmid)
      ∧ Adapt h (Adapter.returning f1 :: fmid.map Adapter.returning)
          = Except.ok (composeSpec (f1 h) fmid) := by
  have key : ∀ (b : Adapter) (l : List Adapter),
      Adapt h (b :: (l ++ [an])) = (Adapt h (b :: l)).bind an.call := fun b l =>
    Adapt_append_singleton h (b :: l) an
  have hcons : ∀ (b : Adapter) (l : List Adapter),
      Adapt h (b :: l) = (b.call h).bind (fun h1 => Adapt h1 l) := by
    intro b l
    cases hb : b.call h <;> simp [Adapt, hb, Except.bind]
  have hret : Adapt h (Adapter.returning f1 :: fmid.map Adapter.returning)
      = Except.ok (composeSpec (f1 h) fmid) := by
    simpa [composeSpec] using Adapt_returning h (f1 :: fmid)
  refine ⟨by rw [key, hcons], key a1 mid, ?_, ?_, Adapt_returning (f1 h) fmid, hret⟩
  · intro h1 inner hc hm
    have hin : Adapt h (a1 :: mid) = Except.ok inner := by
      rw [hcons, hc]; simpa [Except.bind] using hm
    exact ⟨hin, by rw [key, hin]; rfl⟩
  · have happ := Adapt_append_singleton h
      (Adapter.returning f1 :: fmid.map Adapter.returning) (Adapter.returning fn)
    rw [List.cons_append, hret] at happ
    rw [happ]; rfl

/-- C2, as stated, fails: `Adapt` fails when the call of an adapter panics, which the call
of a nil adapter does; the loop of `Adapt` makes that call, so `Adapt(h, nil)` panics in
`Adapt` itself, also after adapters that composed well. -/
theorem Adapt_nil_adapter_panics :
    Adapt (handle exLib) [Adapter.nil]
        = Except.error "invalid memory address or nil pointer dereference"
      ∧ Adapt (handle exLib) [withDB 0, Adapter.nil]
        = Except.error "invalid memory address or nil pointer dereference"
      ∧ ¬ ∃ composed, Adapt (handle exLib) [Adapter.nil] = Except.ok composed := by
  refine ⟨rfl, rfl, ?_⟩
  rintro ⟨composed, hc⟩
  cases hc

/-- C2, amended: `Adapt` is the left fold over the adapters in the given order, each turn
replacing the current handler by `adapter(currentHandler)`, and with no adapters it returns
`h` itself. For adapters that are functions whose calls return, the empty list included,
it returns the composition of the specification, `an(...(a2(a1(h)))...)`, and does not
fail. A list that holds a nil adapter makes `Adapt` panic, and `Adapt` panics only with
the panic of the call of one of its adapters. -/
theorem Adapt_eq_composeSpec (h : Handler) (adapters : List Adapter)
    (fs : List (Handler → Handler)) :
    Adapt h adapters = adapters.foldl (fun cur a => cur.bind a.call) (Except.ok h)
      ∧ Adapt h [] = Except.ok h
      ∧ Adapt h (fs.map Adapter.returning) = Except.ok (composeSpec h fs)
      ∧ composeSpec h fs = fs.reverse.foldr (fun adapter cur => adapter cur) h
      ∧ (Adapter.nil ∈ adapters → ∃ p, Adapt h adapters = Except.error p)
      ∧ (∀ p, Adapt h adapters = Except.error p →
          ∃ a ∈ adapters, ∃ cur, a.call cur = Except.error p) := by
  refine ⟨Adapt_eq_foldl h adapters, rfl, Adapt_returning h fs, ?_, ?_, ?_⟩
  · rw [composeSpec, List.foldr_reverse]
  · intro hnil
    induction adapters generalizing h with
    | nil => simp at hnil
    | cons a rest ih =>
      cases ha : a.call h with
      | error p => exact ⟨p, by simp [Adapt, ha]⟩
      | ok h1 =>
        rcases List.mem_cons.mp hnil with hEq | hmem
        · rw [← hEq] at ha
          simp [Adapter.call] at ha
        · obtain ⟨p, hp⟩ := ih h1 hmem
          exact ⟨p, by simpa [Adapt, ha] using hp⟩
  · intro p hp
    induction adapters generalizing h with
    | nil => simp [Adapt] at hp
    | cons a rest ih =>
      cases ha : a.call h with
      | error q =>
        have hq : q = p := by simpa [Adapt, ha] using hp
        exact ⟨a, List.mem_cons_self _ _, h, by rw [ha, hq]⟩
      | ok h1 =>
        obtain ⟨b, hb, cur, hcur⟩ := ih h1 (by simpa [Adapt, ha] using hp)
        exact ⟨b, List.mem_cons_of_mem _ hb, cur, hcur⟩

/-! ## The dispatcher and the two operations -/

/-- C6: on a request whose method is neither "GET" nor "POST", `handle` answers a fresh
response writer with status 405 and the text "Not supported" (printed by `http.Error` as
one line), returns normally, and does nothing else: no library call is added to the trace
(no session lookup, no decoding of the body, no insert, no query) and the world is the one
before the call in everything but the response writer. -/
theorem handle_unsupported_method (lib : Lib) (r : Request) (s : World)
    (hget : r.Method ≠ "GET") (hpost : r.Method ≠ "POST") (hw : s.w = ResponseWriter.fresh) :
    (handle lib r s).panic = none
      ∧ (handle lib r s).world.w.status = some 405
      ∧ (handle lib r s).world.w.body = "Not supported\n"
      ∧ (handle lib r s).world.trace = s.trace
      ∧ { (handle lib r s).world with w := s.w } = s := by
  have hout : handle lib r s = ⟨{ s with w := httpError s.w "Not supported" 405 }, none⟩ := by
    simp [handle, hget, hpost]
  rw [hout, hw]
  exact ⟨rfl, rfl, rfl, rfl, by rw [← hw]⟩

/-- Witness of C6 at `DELETE /companies`, and at the methods "", "get" and "PUT". -/
theorem handle_unsupported_method_witness :
    ((handle exLib exDelete exWorld).panic = none
      ∧ (handle exLib exDelete exWorld).world.w.status = some 405
      ∧ (handle exLib exDelete exWorld).world.w.body = "Not supported\n"
      ∧ (handle exLib exDelete exWorld).world.trace = exWorld.trace
      ∧ { (handle exLib exDelete exWorld).world with w := exWorld.w } = exWorld)
      ∧ (handle exLib ⟨1, "", ""⟩ exWorld).world.w.status = some 405
      ∧ (handle exLib ⟨1, "get", ""⟩ exWorld).world.w.status = some 405
      ∧ (handle exLib ⟨1, "PUT", ""⟩ exWorld).world.w.status = some 405 :=
  ⟨handle_unsupported_method exLib exDelete exWorld (by decide) (by decide) rfl,
   (handle_unsupported_method exLib ⟨1, "", ""⟩ exWorld (by decide) (by decide) rfl).2.1,
   (handle_unsupported_method exLib ⟨1, "get", ""⟩ exWorld (by decide) (by decide) rfl).2.1,
   (handle_unsupported_method exLib ⟨1, "PUT", ""⟩ exWorld (by decide) (by decide) rfl).2.1⟩

/-- C7: when the store holds a session for the request and the body does not decode,
`handleInsert` answers a fresh response writer with status 400 and the message of the
decode error (printed as one line), returns normally, makes no Insert call (the library
calls are the lookup and the decoding, the collection is unchanged) and sends no redirect
(no Location header). -/
theorem handleInsert_decode_error (lib : Lib) (r : Request) (s : World) (sid : Nat)
    (msg : String)
    (hsess : contextLookup r.id "database" s = some (CtxValue.session sid))
    (hdec : lib.decode r.Body = .error msg) (hw : s.w = ResponseWriter.fresh) :
    (handleInsert lib r s).panic = none
      ∧ (handleInsert lib r s).world.w.status = some 400
      ∧ (handleInsert lib r s).world.w.body = msg ++ "\n"
      ∧ (handleInsert lib r s).world.w.header.lookup "Location" = none
      ∧ (handleInsert lib r s).world.companies = s.companies
      ∧ (handleInsert lib r s).world.trace
          = s.trace ++ [Event.ctxGet r.id "database" (some (CtxValue.session sid)),
                        Event.decode r.id] := by
  simp [handleInsert, contextGet, hsess, assertSession, hdec, hw, httpError, Write,
    WriteHeader, ResponseWriter.fresh, headerSet]

/-- Witness of C7: the truncated body of the specification's scenario, in the world the
middleware hands to the handler. -/
theorem handleInsert_decode_error_witness :
    (handleInsert exLib exBadPost (exInner exBadPost)).panic = none
      ∧ (handleInsert exLib exBadPost (exInner exBadPost)).world.w.status = some 400
      ∧ (handleInsert exLib exBadPost (exInner exBadPost)).world.w.body
          = "unexpected EOF" ++ "\n"
      ∧ (handleInsert exLib exBadPost (exInner exBadPost)).world.w.header.lookup "Location"
          = none
      ∧ (handleInsert exLib exBadPost (exInner exBadPost)).world.companies
          = (exInner exBadPost).companies
      ∧ (handleInsert exLib exBadPost (exInner exBadPost)).world.trace
          = (exInner exBadPost).trace
            ++ [Event.ctxGet exBadPost.id "database" (some (CtxValue.session 1)),
                Event.decode exBadPost.id] :=
  handleInsert_decode_error exLib exBadPost (exInner exBadPost) 1 "unexpected EOF"
    (by decide) rfl rfl

/-- C8: when the body decodes to `c`, the record `handleInsert` passes to `Insert` (through
the open session of the store) has the freshly generated identifier as id and the current
time as `When`, whatever id and time `c` carries, and the name, description, floor and unit
of `c`; the Insert call is made once, after the lookup and the decoding, and when the
store accepts it the collection has grown by exactly the document of that record (the
record with its time in milliseconds). -/
theorem handleInsert_overwrites_id_and_when (lib : Lib) (r : Request) (s : World)
    (sid : Nat) (c : company)
    (hsess : contextLookup r.id "database" s = some (CtxValue.session sid))
    (hopen : s.isOpen sid = true) (hdec : lib.decode r.Body = .ok c) :
    (handleInsert lib r s).world.trace
        = s.trace ++ [Event.ctxGet r.id "database" (some (CtxValue.session sid)),
                      Event.decode r.id,
                      Event.insert sid (insertedRecord c s)]
      ∧ (insertedRecord c s).ID = (NewObjectId s).1
      ∧ (insertedRecord c s).When = s.clock
      ∧ (insertedRecord c s).Name = c.Name
      ∧ (insertedRecord c s).Description = c.Description
      ∧ (insertedRecord c s).Floor = c.Floor
      ∧ (insertedRecord c s).Unit = c.Unit
      ∧ (∀ id when, insertedRecord { c with ID := id, When := when } s = insertedRecord c s)
      ∧ (s.insertErr = none →
          (handleInsert lib r s).world.companies
            = s.companies ++ [bsonDocument (insertedRecord c s)]) := by
  refine ⟨?_, rfl, rfl, rfl, rfl, rfl, rfl, fun _ _ => rfl, ?_⟩
  · cases hins : s.insertErr <;>
      simp [handleInsert, contextGet, hsess, assertSession, hdec, NewObjectId, timeNow,
        collInsert, World.isOpen, insertedRecord, hins] <;>
      simp_all [World.isOpen]
  · intro hins
    simp [handleInsert, contextGet, hsess, assertSession, hdec, NewObjectId, timeNow,
        collInsert, World.isOpen, insertedRecord, hins]
    simp_all [World.isOpen]

/-- Witness of C8: the decoded record carries the id `[1, 2, 3]` and the time 77; the
document inserted carries the generated id and the time of the clock, in milliseconds. -/
theorem handleInsert_overwrites_id_and_when_witness :
    (handleInsert exLib exPost (exInner exPost)).world.companies
      = [] ++ [⟨[101, 83, 241, 0, 10, 11, 12, 16, 146, 0, 0, 8], "Acme",
          "Widgets", 3, 12, 1700000000123000000⟩] :=
  (handleInsert_overwrites_id_and_when exLib exPost (exInner exPost) 1
    ⟨[1, 2, 3], "Acme", "Widgets", 3, 12, 77⟩ (by decide) (by decide) rfl).2.2.2.2.2.2.2.2 rfl

/-- Every character `Hex` writes is one of the sixteen hexadecimal digits. -/
theorem hexDigit_mem (n : Nat) : hexDigit (n % 16) ∈ "0123456789abcdef".data := by
  have h : n % 16 < 16 := Nat.mod_lt _ (by decide)
  generalize n % 16 = k at h
  interval_cases k <;> decide

/-- `Hex` writes hexadecimal digits only. -/
theorem Hex_digits (id : ObjectId) (ch : Char) (hch : ch ∈ (Hex id).data) :
    ch ∈ "0123456789abcdef".data := by
  simp only [Hex, List.mem_flatMap] at hch
  obtain ⟨b, -, hb⟩ := hch
  simp only [List.mem_cons, List.mem_singleton, List.not_mem_nil, or_false] at hb
  rcases hb with rfl | rfl
  · exact hexDigit_mem (b / 16)
  · exact hexDigit_mem b

/-- C9: on a POST request whose body decodes to `c` and whose Insert succeeds,
`handleInsert` answers a fresh response writer with status 307 and the Location
"/companies/" followed by the hexadecimal form of the identifier of the record it
inserted, which is the identifier of the document in the collection; that form is 24
hexadecimal digits; no body is written. -/
theorem handleInsert_redirects_to_new_id (lib : Lib) (r : Request) (s : World)
    (sid : Nat) (c : company)
    (hm : r.Method = "POST")
    (hsess : contextLookup r.id "database" s = some (CtxValue.session sid))
    (hopen : s.isOpen sid = true) (hdec : lib.decode r.Body = .ok c)
    (hins : s.insertErr = none) (hw : s.w = ResponseWriter.fresh) :
    (handleInsert lib r s).panic = none
      ∧ (handleInsert lib r s).world.w.status = some 307
      ∧ (handleInsert lib r s).world.w.header.lookup "Location"
          = some ("/companies/" ++ Hex (insertedRecord c s).ID)
      ∧ (handleInsert lib r s).world.companies
          = s.companies ++ [bsonDocument (insertedRecord c s)]
      ∧ (bsonDocument (insertedRecord c s)).ID = (insertedRecord c s).ID
      ∧ (Hex (insertedRecord c s).ID).length = 24
      ∧ (∀ ch ∈ (Hex (insertedRecord c s).ID).data, ch ∈ "0123456789abcdef".data)
      ∧ (handleInsert lib r s).world.w.body = "" := by
  have hout : handleInsert lib r s
      = ⟨{ s with
            w := httpRedirect s.w r ("/companies/" ++ Hex (insertedRecord c s).ID) 307,
            companies := s.companies ++ [bsonDocument (insertedRecord c s)],
            objectIdCounter := (s.objectIdCounter + 1) % 4294967296,
            trace := s.trace ++ [Event.ctxGet r.id "database" (some (CtxValue.session sid)),
                      Event.decode r.id, Event.insert sid (insertedRecord c s)] }, none⟩ := by
    simp [handleInsert, contextGet, hsess, assertSession, hdec, NewObjectId, timeNow,
        collInsert, World.isOpen, insertedRecord, hins]
    simp_all [World.isOpen]
  rw [hout]
  refine ⟨rfl, ?_, ?_, rfl, rfl, ?_, fun ch hch => Hex_digits _ ch hch, ?_⟩
  · simp [httpRedirect, hw, hm, ResponseWriter.fresh, WriteHeader, headerSet]
  · simp [httpRedirect, hw, hm, ResponseWriter.fresh, WriteHeader, headerSet]
  · simp [Hex, insertedRecord, NewObjectId, String.length]
  · simp [httpRedirect, hw, hm, ResponseWriter.fresh, WriteHeader, headerSet]

/-- Witness of C9 at the POST of the specification's scenario. -/
theorem handleInsert_redirects_to_new_id_witness :
    (handleInsert exLib exPost (exInner exPost)).world.w.status = some 307
      ∧ (handleInsert exLib exPost (exInner exPost)).world.w.header.lookup "Location"
          = some ("/companies/" ++ "6553f1000a0b0c1092000008")
      ∧ (handleInsert exLib exPost (exInner exPost)).world.w.body = "" :=
  have h := handleInsert_redirects_to_new_id exLib exPost (exInner exPost) 1
    ⟨[1, 2, 3], "Acme", "Widgets", 3, 12, 77⟩ rfl (by decide) (by decide) rfl rfl rfl
  ⟨h.2.1, h.2.2.1, h.2.2.2.2.2.2.2⟩

/-- C10, at the failing input: a GET served by the handler of `main` while the collection
is empty and the query succeeds is answered with status 200 and the body `null`, not the
JSON array `[]`: the nil slice `companies` is still nil after `All`, and a nil slice
encodes as `null`. -/
theorem handleRead_empty_collection_writes_null :
    exWorld.companies = []
      ∧ (∃ registered, mainHandler exLib 0 = Except.ok registered
          ∧ (registered exGet exWorld).panic = none
          ∧ (registered exGet exWorld).world.w.status = some 200
          ∧ (registered exGet exWorld).world.w.body = "null\n"
          ∧ (registered exGet exWorld).world.w.body ≠ "[]\n")
      ∧ (handleRead exLib exGet (exInner exGet)).world.w.body = "null\n" :=
  ⟨rfl, ⟨_, rfl, by decide, by decide, by decide, by decide⟩, by decide⟩

/-! ## The session middleware -/

/-- A session that has just been closed is not open. -/
theorem isOpen_sessionClose_self (sid : Nat) (s : World) :
    (sessionClose sid s).isOpen sid = false := by
  by_cases hs : sid < s.sessions.length
  · simp [World.isOpen, sessionClose, List.getElem?_set, hs]
  · simp [World.isOpen, sessionClose, List.getElem?_set, hs]

/-- C3: the adapter `withDB(db)` called on `h` returns a handler, `withDB(db)(h)`. For
an open pool session `db`, one call of `withDB(db)(h)` on `r` makes exactly the
library calls `db.Copy()` and `context.Set` before `h`, runs `h` once, in the world these
two calls left, and after `h` makes exactly the call `Close()` on the copy, on every exit
path of `h`: the outcome of `withDB(db)(h)` is the outcome of that one run of `h` (its
panic included) followed by the closing of the copy. The copy is a new session, not `db`;
it is closed at the end, and `db` is open at the end exactly if it was open when `h`
finished. -/
theorem withDB_copies_once_and_closes_once (db : Nat) (h : Handler) (r : Request)
    (s : World) (hopen : s.isOpen db = true) :
    (withDB db).call h = Except.ok (withDBHandler db h) ∧
    ∃ (sid : Nat) (s1 : World) (inner : Outcome),
      sessionCopy db s = some (sid, s1)
        ∧ sid ≠ db
        ∧ s1.trace = s.trace ++ [Event.copy db sid]
        ∧ inner = h r (contextSet r.id "database" (CtxValue.session sid) s1)
        ∧ (contextSet r.id "database" (CtxValue.session sid) s1).trace
            = s.trace ++ [Event.copy db sid, Event.ctxSet r.id "database" (CtxValue.session sid)]
        ∧ (withDBHandler db h r s).world.trace = inner.world.trace ++ [Event.close sid]
        ∧ (withDBHandler db h r s).world = sessionClose sid inner.world
        ∧ (withDBHandler db h r s).panic = inner.panic
        ∧ (withDBHandler db h r s).world.isOpen sid = false
        ∧ (withDBHandler db h r s).world.isOpen db = inner.world.isOpen db := by
  have hlt : db < s.sessions.length := by
    by_contra hge
    have hnone : s.sessions[db]? = none := List.getElem?_eq_none (Nat.le_of_not_lt hge)
    simp [World.isOpen, hnone] at hopen
  have hne : s.sessions.length ≠ db := Nat.ne_of_gt hlt
  have hcopy : sessionCopy db s = some (s.sessions.length,
      { s with sessions := s.sessions ++ [true],
               trace := s.trace ++ [Event.copy db s.sessions.length] }) := by
    simp [sessionCopy, hopen]
  have hout : withDBHandler db h r s
      = ⟨sessionClose s.sessions.length
          (h r (contextSet r.id "database" (CtxValue.session s.sessions.length)
            { s with sessions := s.sessions ++ [true],
                     trace := s.trace ++ [Event.copy db s.sessions.length] })).world,
         (h r (contextSet r.id "database" (CtxValue.session s.sessions.length)
            { s with sessions := s.sessions ++ [true],
                     trace := s.trace ++ [Event.copy db s.sessions.length] })).panic⟩ := by
    simp only [withDBHandler, hcopy]
  refine ⟨rfl, s.sessions.length, _, _, hcopy, hne, rfl, rfl, ?_, ?_, ?_, ?_, ?_, ?_⟩
  · simp [contextSet]
  · rw [hout]; rfl
  · rw [hout]
  · rw [hout]
  · rw [hout]
    exact isOpen_sessionClose_self _ _
  · rw [hout]
    simp only [World.isOpen, sessionClose]
    rw [List.getElem?_set_ne hne]

/-- Witness of C3: a wrapped handler that panics; the copy is closed all the same and the
panic goes on. -/
theorem withDB_copies_once_and_closes_once_witness :
    exWorld.isOpen 0 = true
      ∧ (withDBHandler 0 panicHandler exGet exWorld).world.trace
          = [Event.copy 0 1, Event.ctxSet 5 "database" (CtxValue.session 1), Event.close 1]
      ∧ (withDBHandler 0 panicHandler exGet exWorld).panic = some "boom"
      ∧ (withDB 0).call panicHandler = Except.ok (withDBHandler 0 panicHandler)
      ∧ ∃ (sid : Nat) (s1 : World) (inner : Outcome),
      sessionCopy 0 exWorld = some (sid, s1)
        ∧ sid ≠ 0
        ∧ s1.trace = exWorld.trace ++ [Event.copy 0 sid]
        ∧ inner = panicHandler exGet (contextSet exGet.id "database" (CtxValue.session sid) s1)
        ∧ (contextSet exGet.id "database" (CtxValue.session sid) s1).trace
            = exWorld.trace
              ++ [Event.copy 0 sid, Event.ctxSet exGet.id "database" (CtxValue.session sid)]
        ∧ (withDBHandler 0 panicHandler exGet exWorld).world.trace
            = inner.world.trace ++ [Event.close sid]
        ∧ (withDBHandler 0 panicHandler exGet exWorld).world = sessionClose sid inner.world
        ∧ (withDBHandler 0 panicHandler exGet exWorld).panic = inner.panic
        ∧ (withDBHandler 0 panicHandler exGet exWorld).world.isOpen sid = false
        ∧ (withDBHandler 0 panicHandler exGet exWorld).world.isOpen 0 = inner.world.isOpen 0 :=
  ⟨rfl, by decide, by decide,
    withDB_copies_once_and_closes_once 0 panicHandler exGet exWorld rfl⟩

/-! ## The request-scoped store -/

/-- Looking a key up finds what `context.Set` has just stored under it. -/
theorem contextLookup_contextSet (rid : Nat) (key : String) (val : CtxValue) (s : World) :
    contextLookup rid key (contextSet rid key val s) = some val := by
  simp [contextLookup, contextSet, List.lookup]

/-- `handleInsert` makes no change to the store. -/
theorem handleInsert_data (lib : Lib) (r : Request) (s : World) :
    (handleInsert lib r s).world.data = s.data := by
  cases hv : assertSession (contextLookup r.id "database" s) with
  | error p => simp [handleInsert, contextGet, hv]
  | ok sid =>
    cases hd : lib.decode r.Body with
    | error msg => simp [handleInsert, contextGet, hv, hd]
    | ok c =>
      by_cases ho : s.sessions[sid]? = some true <;> cases hi : s.insertErr <;>
        simp [handleInsert, contextGet, hv, hd, collInsert, NewObjectId, World.isOpen, ho, hi]

/-- `handleRead` makes no change to the store. -/
theorem handleRead_data (lib : Lib) (r : Request) (s : World) :
    (handleRead lib r s).world.data = s.data := by
  cases hv : assertSession (contextLookup r.id "database" s) with
  | error p => simp [handleRead, contextGet, hv]
  | ok sid =>
    by_cases ho : s.sessions[sid]? = some true <;> cases hf : s.findErr <;>
      cases hl : (sortByWhenDesc s.companies).take 100 <;> cases he : s.encodeErr <;>
      simp [handleRead, contextGet, hv, collFindAll, jsonEncode, World.isOpen, ho, hf, hl, he]

/-- `handle` makes no change to the store. -/
theorem handle_data (lib : Lib) (r : Request) (s : World) :
    (handle lib r s).world.data = s.data := by
  unfold handle
  split
  · exact handleRead_data lib r s
  · split
    · exact handleInsert_data lib r s
    · rfl

/-- After the entries of a request have been filtered out, a lookup of the request finds
nothing. -/
theorem lookup_filter_ne {β : Type} (l : List (Nat × β)) (k : Nat) (p : Nat → Bool)
    (hp : p k = false) : (l.filter (fun e => p e.1)).lookup k = none := by
  induction l with
  | nil => rfl
  | cons e rest ih =>
    by_cases he : p e.1 = true
    · have hne : (k == e.1) = false := by
        apply beq_false_of_ne
        rintro rfl
        simp [hp] at he
      simp [List.filter_cons, he, List.lookup, hne, ih]
    · simp [List.filter_cons, he, ih]

/-- What `withDB(db)(handle)` leaves in the store: the map of the request, holding the
session under "database", when the copy succeeded. -/
theorem withDB_handle_data (lib : Lib) (db : Nat) (r : Request) (s : World) :
    (withDBHandler db (handle lib) r s).world.data.filter (fun e => e.1 ≠ r.id)
      = s.data.filter (fun e => e.1 ≠ r.id) := by
  by_cases ho : s.isOpen db = true
  · simp [withDBHandler, sessionCopy, ho, sessionClose, handle_data, contextSet,
      List.filter_cons, List.filter_filter]
  · simp [withDBHandler, sessionCopy, ho]

/-- `Adapt` with the one adapter `withDB(db)` returns the handler of `withDB` around the
base handler. -/
theorem Adapt_withDB (h : Handler) (db : Nat) :
    Adapt h [withDB db] = Except.ok (withDBHandler db h) := rfl

/-- The composition in `main` does not panic: the handler registered is `ClearHandler`
around the handler of `withDB` around `handle`. -/
theorem mainHandler_eq (lib : Lib) (db : Nat) :
    mainHandler lib db = Except.ok (ClearHandler (withDBHandler db (handle lib))) := rfl

/-- The handler of `main` leaves the store without the entries of the request it served
and with the other entries as they were. -/
theorem mainHandler_data (lib : Lib) (db : Nat) (r : Request) (s : World) :
    (ClearHandler (withDBHandler db (handle lib)) r s).world.data
      = s.data.filter (fun e => e.1 ≠ r.id) := by
  simp only [ClearHandler, contextClear]
  exact withDB_handle_data lib db r s

/-- The store after the handler of `main` has served a sequence of requests. -/
theorem serveAll_mainHandler_data (lib : Lib) (db : Nat) (rs : List Request) (s : World) :
    (serveAll (ClearHandler (withDBHandler db (handle lib))) rs s).data
      = s.data.filter (fun e => rs.all (fun r => e.1 ≠ r.id)) := by
  induction rs generalizing s with
  | nil => simp [serveAll]
  | cons r rest ih =>
    rw [serveAll, ih, mainHandler_data]
    simp [List.filter_filter, Bool.and_comm]

/-- C4, as stated, fails: after `withDB(db)(handle)` has served a request the store still
holds the session under the key of the request, and served by `withDB` alone the store
grows by one entry with every request. -/
theorem withDB_leaves_store_entry :
    ∃ adapted, Adapt (handle exLib) [withDB 0] = Except.ok adapted
      ∧ contextLookup exGet.id "database" (adapted exGet exWorld).world
        = some (CtxValue.session 1)
      ∧ exWorld.data.length = 0
      ∧ (adapted exGet exWorld).world.data.length = 1
      ∧ (serveAll adapted [exGet, exPost, exBadPost, exDelete] exWorld).data.length = 4 :=
  ⟨_, rfl, by decide, by decide, by decide, by decide⟩

/-- C4, amended: the entry is removed by `context.ClearHandler`, which `main` wraps around
the adapted handler. After `ClearHandler(h)` has served `r` the store holds no entry under
the key of `r`, whatever `h` did and however it ended; the handler of `main`,
`ClearHandler(Adapt(handle, withDB(db)))`, which `Adapt` composes without a panic, leaves
the store as it was before the request
less the entries of `r`; and after it has served any sequence of requests the store holds
no entry of any of them and is no larger than before. -/
theorem ClearHandler_removes_request_entry (lib : Lib) (db : Nat) (h : Handler)
    (r : Request) (s : World) (rs : List Request) :
    (ClearHandler h r s).world.data.lookup r.id = none
      ∧ (∀ key, contextLookup r.id key (ClearHandler h r s).world = none)
      ∧ (ClearHandler h r s).panic = (h r s).panic
      ∧ ∃ registered, mainHandler lib db = Except.ok registered
        ∧ (registered r s).world.data = s.data.filter (fun e => e.1 ≠ r.id)
        ∧ (∀ q ∈ rs, (serveAll registered rs s).data.lookup q.id = none)
        ∧ (serveAll registered rs s).data.length ≤ s.data.length := by
  have hclear : (ClearHandler h r s).world.data.lookup r.id = none := by
    simp only [ClearHandler, contextClear]
    exact lookup_filter_ne _ r.id (fun x => decide (x ≠ r.id)) (by simp)
  refine ⟨hclear, fun key => by simp [contextLookup, hclear], rfl, _, mainHandler_eq lib db,
    mainHandler_data lib db r s, ?_, ?_⟩
  · intro q hq
    rw [serveAll_mainHandler_data]
    refine lookup_filter_ne _ q.id (fun x => rs.all (fun r => decide (x ≠ r.id))) ?_
    simp only [List.all_eq_false]
    exact ⟨q, hq, by simp⟩
  · rw [serveAll_mainHandler_data]
    exact List.length_filter_le _ _

/-! ## The session the handlers find -/

/-- With an open session stored for the request, `handleRead` returns normally; its library
calls are the lookup, which finds that session, and the query through it. -/
theorem handleRead_with_session (lib : Lib) (r : Request) (s : World) (sid : Nat)
    (hsess : contextLookup r.id "database" s = some (CtxValue.session sid))
    (hopen : s.isOpen sid = true) :
    (handleRead lib r s).panic = none
      ∧ (handleRead lib r s).world.sessions = s.sessions
      ∧ (handleRead lib r s).world.trace
          = s.trace ++ [Event.ctxGet r.id "database" (some (CtxValue.session sid)),
                        Event.find sid] := by
  have ho : s.sessions[sid]? = some true := by simpa [World.isOpen] using hopen
  cases hf : s.findErr <;> cases hl : (sortByWhenDesc s.companies).take 100 <;>
    cases he : s.encodeErr <;>
    simp [handleRead, contextGet, hsess, assertSession, collFindAll, jsonEncode,
      World.isOpen, ho, hf, hl, he]

/-- With an open session stored for the request, `handleInsert` returns normally; its
library calls are the lookup, which finds that session, the decoding of the body and, when
the body decodes, one Insert through that session. -/
theorem handleInsert_with_session (lib : Lib) (r : Request) (s : World) (sid : Nat)
    (hsess : contextLookup r.id "database" s = some (CtxValue.session sid))
    (hopen : s.isOpen sid = true) :
    (handleInsert lib r s).panic = none
      ∧ (handleInsert lib r s).world.sessions = s.sessions
      ∧ ((handleInsert lib r s).world.trace
            = s.trace ++ [Event.ctxGet r.id "database" (some (CtxValue.session sid)),
                          Event.decode r.id]
          ∨ ∃ c, (handleInsert lib r s).world.trace
            = s.trace ++ [Event.ctxGet r.id "database" (some (CtxValue.session sid)),
                          Event.decode r.id, Event.insert sid c]) := by
  have ho : s.sessions[sid]? = some true := by simpa [World.isOpen] using hopen
  cases hd : lib.decode r.Body with
  | error msg => simp [handleInsert, contextGet, hsess, assertSession, hd]
  | ok c =>
    cases hi : s.insertErr <;>
      simp [handleInsert, contextGet, hsess, assertSession, hd, collInsert, NewObjectId,
        World.isOpen, ho, hi]

/-- C5: when `Adapt(handle, withDB(db))` serves a GET or POST request with an open pool
session `db`, the run does not panic (the type assertion succeeds), the one lookup of
"database" finds the session `withDB` copied for this request, every database call of the
run goes through that session, and the session is closed only after these calls (it is open
in the world the handler runs in). Called on a request for which the store has no
"database" entry, `handleInsert` and `handleRead` panic, and the response writer is as it
was: nothing has been written. -/
theorem handlers_find_the_copied_session (lib : Lib) (db : Nat) (r : Request) (s : World)
    (hm : r.Method = "GET" ∨ r.Method = "POST") (hopen : s.isOpen db = true) :
    ∃ served, Adapt (handle lib) [withDB db] = Except.ok served
      ∧ (served r s).panic = none
      ∧ (∃ calls,
          (served r s).world.trace
            = s.trace ++ [Event.copy db s.sessions.length,
                  Event.ctxSet r.id "database" (CtxValue.session s.sessions.length),
                  Event.ctxGet r.id "database" (some (CtxValue.session s.sessions.length))]
                ++ calls ++ [Event.close s.sessions.length]
          ∧ ∀ e ∈ calls, e = Event.decode r.id ∨ e = Event.find s.sessions.length
              ∨ ∃ c, e = Event.insert s.sessions.length c)
      ∧ (∃ s1, sessionCopy db s = some (s.sessions.length, s1)
          ∧ (contextSet r.id "database" (CtxValue.session s.sessions.length) s1).isOpen
              s.sessions.length = true
          ∧ served r s
              = ⟨sessionClose s.sessions.length
                  (handle lib r
                    (contextSet r.id "database" (CtxValue.session s.sessions.length) s1)).world,
                 none⟩)
      ∧ (∀ (q : Request) (t : World), contextLookup q.id "database" t = none →
          (handleInsert lib q t).panic ≠ none ∧ (handleInsert lib q t).world.w = t.w
            ∧ (handleRead lib q t).panic ≠ none ∧ (handleRead lib q t).world.w = t.w) := by
  refine ⟨withDBHandler db (handle lib), rfl, ?_⟩
  have hcopy : sessionCopy db s = some (s.sessions.length,
      { s with sessions := s.sessions ++ [true],
               trace := s.trace ++ [Event.copy db s.sessions.length] }) := by
    simp [sessionCopy, hopen]
  have hsess := contextLookup_contextSet r.id "database" (CtxValue.session s.sessions.length)
      { s with sessions := s.sessions ++ [true],
               trace := s.trace ++ [Event.copy db s.sessions.length] }
  have hop : (contextSet r.id "database" (CtxValue.session s.sessions.length)
      { s with sessions := s.sessions ++ [true],
               trace := s.trace ++ [Event.copy db s.sessions.length] }).isOpen
        s.sessions.length = true := by
    simp [World.isOpen, contextSet]
  have hout : withDBHandler db (handle lib) r s
      = ⟨sessionClose s.sessions.length
          (handle lib r (contextSet r.id "database" (CtxValue.session s.sessions.length)
            { s with sessions := s.sessions ++ [true],
                     trace := s.trace ++ [Event.copy db s.sessions.length] })).world,
         (handle lib r (contextSet r.id "database" (CtxValue.session s.sessions.length)
            { s with sessions := s.sessions ++ [true],
                     trace := s.trace ++ [Event.copy db s.sessions.length] })).panic⟩ := by
    simp only [withDBHandler, hcopy]
  have hlast : ∀ (q : Request) (t : World), contextLookup q.id "database" t = none →
      (handleInsert lib q t).panic ≠ none ∧ (handleInsert lib q t).world.w = t.w
        ∧ (handleRead lib q t).panic ≠ none ∧ (handleRead lib q t).world.w = t.w := by
    intro q t hnone
    simp [handleInsert, handleRead, contextGet, hnone, assertSession]
  have hfin : ∀ calls : List Event,
      (handle lib r (contextSet r.id "database" (CtxValue.session s.sessions.length)
        { s with sessions := s.sessions ++ [true],
                 trace := s.trace ++ [Event.copy db s.sessions.length] })).world.trace
        = (contextSet r.id "database" (CtxValue.session s.sessions.length)
            { s with sessions := s.sessions ++ [true],
                     trace := s.trace ++ [Event.copy db s.sessions.length] }).trace
          ++ (Event.ctxGet r.id "database" (some (CtxValue.session s.sessions.length))
              :: calls) →
      (withDBHandler db (handle lib) r s).world.trace
        = s.trace ++ [Event.copy db s.sessions.length,
              Event.ctxSet r.id "database" (CtxValue.session s.sessions.length),
              Event.ctxGet r.id "database" (some (CtxValue.session s.sessions.length))]
            ++ calls ++ [Event.close s.sessions.length] := by
    intro calls htr
    rw [hout]
    show (handle lib r _).world.trace ++ [Event.close s.sessions.length] = _
    rw [htr]
    simp [contextSet]
  rcases hm with hm | hm
  · have hh : handle lib r = handleRead lib r := by
      funext t; simp [handle, hm]
    obtain ⟨hp, -, htr⟩ := handleRead_with_session lib r _ _ hsess hop
    rw [← hh] at hp htr
    refine ⟨by rw [hout]; exact hp, ⟨[Event.find s.sessions.length], hfin _ htr, ?_⟩,
      ⟨_, hcopy, hop, by rw [hout, hp]⟩, hlast⟩
    simp
  · have hne : r.Method ≠ "GET" := by rw [hm]; decide
    have hh : handle lib r = handleInsert lib r := by
      funext t; simp [handle, hm, hne]
    obtain ⟨hp, -, htr⟩ := handleInsert_with_session lib r _ _ hsess hop
    rw [← hh] at hp htr
    refine ⟨by rw [hout]; exact hp, ?_, ⟨_, hcopy, hop, by rw [hout, hp]⟩, hlast⟩
    rcases htr with htr | ⟨c, htr⟩
    · exact ⟨[Event.decode r.id], hfin _ htr, by simp⟩
    · exact ⟨[Event.decode r.id, Event.insert s.sessions.length c], hfin _ htr, by simp⟩

/-- Witness of C5: the GET and the POST of the examples served in `exWorld`, and
`handleRead` called without the middleware. -/
theorem handlers_find_the_copied_session_witness :
    exWorld.isOpen 0 = true
      ∧ (∃ served, Adapt (handle exLib) [withDB 0] = Except.ok served
          ∧ (served exGet exWorld).panic = none)
      ∧ (∃ served, Adapt (handle exLib) [withDB 0] = Except.ok served
          ∧ (served exPost exWorld).panic = none)
      ∧ (handleRead exLib exGet exWorld).panic ≠ none
      ∧ (handleRead exLib exGet exWorld).world.w = exWorld.w := by
  obtain ⟨g, hg, hp, -, -, hl⟩ :=
    handlers_find_the_copied_session exLib 0 exGet exWorld (Or.inl rfl) rfl
  obtain ⟨g2, hg2, hp2, -⟩ :=
    handlers_find_the_copied_session exLib 0 exPost exWorld (Or.inr rfl) rfl
  exact ⟨rfl, ⟨g, hg, hp⟩, ⟨g2, hg2, hp2⟩, (hl exGet exWorld rfl).2.2.1,
    (hl exGet exWorld rfl).2.2.2⟩

end GoMongodb
